import Mathlib

/-!
Shallow embedding of the quotanic FBM feature-recognition core
(`src/FBM/pattern_recognizer.py`, `src/FBM/advanced_algorithms.py`,
`src/FBM/geometry_analyzer.py`, `src/FBM/FBM_advanced.py`), together with
theorems settling the specification claims about it.

Numbers are modelled by the real numbers; Python's `math.sqrt` is
`Real.sqrt`, Python lists are Lean lists, Python's stable `list.sort` is a
stable insertion sort, and Python sets of indices are lists used only for
membership tests.  Imperative loops become structural recursions that
thread the mutable state explicitly.
-/

noncomputable section

namespace FBM

open Classical

/-- A 3D point, as produced by `gp_Pnt.X()/Y()/Z()` in the Python sources. -/
structure Pt where
  x : ℝ
  y : ℝ
  z : ℝ

instance : Inhabited Pt := ⟨⟨0, 0, 0⟩⟩

/-- The fields of a recognized machining feature that the pattern
recognizer and adjacency analyzer read: its id, its `feature_type.value`
string, and the optional `'center'` entry of its geometry dictionary. -/
structure Feature where
  featureId : ℕ
  featureType : String
  geometry : Option Pt

instance : Inhabited Feature := ⟨⟨0, "", none⟩⟩

/-- `PatternType` enum of `pattern_recognizer.py` (the four members that
`recognize_all_patterns` can emit). -/
inductive PatternType where
  | LINEAR
  | CIRCULAR
  | GRID
  | MIRROR
  deriving DecidableEq

/-- The `direction` field of `FeaturePattern`: a unit vector for linear
patterns, a mirror-plane name for mirror patterns (the Python code stores
either a float tuple or a string tuple there). -/
inductive PatternDirection where
  | vec (v : Pt)
  | plane (s : String)

/-- The `FeaturePattern` dataclass of `pattern_recognizer.py`. -/
structure FeaturePattern where
  patternType : PatternType
  featureIds : List ℕ
  patternCount : ℕ
  spacing : ℝ
  angle : ℝ
  center : Option Pt
  direction : Option PatternDirection
  confidence : ℝ

/-- `self.POSITION_TOLERANCE` of `PatternRecognizer.__init__`. -/
def POSITION_TOLERANCE : ℝ := 0.5

/-- `self.MIN_PATTERN_COUNT` of `PatternRecognizer.__init__`. -/
def MIN_PATTERN_COUNT : ℕ := 2

/-- Euclidean distance `math.sqrt(dx**2 + dy**2 + dz**2)` from `p` to `q`. -/
def dist3 (p q : Pt) : ℝ :=
  Real.sqrt ((q.x - p.x) ^ 2 + (q.y - p.y) ^ 2 + (q.z - p.z) ^ 2)

/-- `PatternRecognizer._get_feature_center`: the `'center'` entry of the
geometry dictionary if present, `(0.0, 0.0, 0.0)` otherwise. -/
def getFeatureCenter (f : Feature) : Pt :=
  match f.geometry with
  | some c => c
  | none => ⟨0, 0, 0⟩

/-- `PatternRecognizer._distance_along_line`: signed projection of
`testPoint - linePoint` onto `direction`. -/
def distAlongLine (linePoint direction testPoint : Pt) : ℝ :=
  (testPoint.x - linePoint.x) * direction.x +
    (testPoint.y - linePoint.y) * direction.y +
    (testPoint.z - linePoint.z) * direction.z

/-- `PatternRecognizer._is_on_line`: distance from `testPoint` to the line
through `linePoint` with direction `direction` is below the position
tolerance.  The `spacing` argument is accepted and ignored, as in the
Python source. -/
def isOnLine (linePoint direction : Pt) (spacing : ℝ) (testPoint : Pt) : Prop :=
  let proj := distAlongLine linePoint direction testPoint
  let closest : Pt := ⟨linePoint.x + proj * direction.x,
                       linePoint.y + proj * direction.y,
                       linePoint.z + proj * direction.z⟩
  Real.sqrt ((testPoint.x - closest.x) ^ 2 + (testPoint.y - closest.y) ^ 2 +
    (testPoint.z - closest.z) ^ 2) < POSITION_TOLERANCE

/-- Python's `max` over a nonempty list of floats (`0` for `[]`, a case the
sources never reach). -/
def listMax : List ℝ → ℝ
  | [] => 0
  | a :: rest => rest.foldl max a

/-- One step of Python's stable sort: insert `a` into the already sorted
list, after any element whose key does not exceed `a`'s. -/
def insertByKey (key : ℕ → ℝ) (a : ℕ) : List ℕ → List ℕ
  | [] => [a]
  | b :: bs => if key a < key b then a :: b :: bs else b :: insertByKey key a bs

/-- Python's stable `list.sort(key=...)` on index lists, realized as a
stable insertion sort. -/
def sortByKey (key : ℕ → ℝ) (l : List ℕ) : List ℕ :=
  l.foldl (fun acc a => insertByKey key a acc) []

/-- The inner `for k in range(len(features))` loop of
`detect_linear_patterns`: gather every index `k` outside `[i, j]` and the
used set whose center lies on the candidate line. -/
def collectOnLine (cs : List Pt) (used : List ℕ) (i j : ℕ) (base dir : Pt)
    (spacing : ℝ) : List ℕ → List ℕ
  | [] => []
  | k :: ks =>
      if k = i ∨ k = j ∨ k ∈ used then collectOnLine cs used i j base dir spacing ks
      else if isOnLine base dir spacing (cs.getD k ⟨0, 0, 0⟩) then
        k :: collectOnLine cs used i j base dir spacing ks
      else collectOnLine cs used i j base dir spacing ks

/-- The consecutive-spacings computation of `detect_linear_patterns`:
distances between successive (already sorted) pattern members. -/
def consecutiveDists (cs : List Pt) : List ℕ → List ℝ
  | a :: b :: rest =>
      dist3 (cs.getD a ⟨0, 0, 0⟩) (cs.getD b ⟨0, 0, 0⟩) :: consecutiveDists cs (b :: rest)
  | _ => []

/-- The body of the `j` loop of `detect_linear_patterns` for one candidate
pair `(i, j)`: either a linear pattern together with the (sorted) index
list to mark used, or `none` when the pair is rejected. -/
def tryPair (fs : List Feature) (cs : List Pt) (used : List ℕ) (i j : ℕ) :
    Option (FeaturePattern × List ℕ) :=
  let pI := cs.getD i ⟨0, 0, 0⟩
  let pJ := cs.getD j ⟨0, 0, 0⟩
  let dx := pJ.x - pI.x
  let dy := pJ.y - pI.y
  let dz := pJ.z - pI.z
  let spacing := Real.sqrt (dx ^ 2 + dy ^ 2 + dz ^ 2)
  if spacing < 0.1 then none
  else
    let dir : Pt := ⟨dx / spacing, dy / spacing, dz / spacing⟩
    let patternFeatures :=
      i :: j :: collectOnLine cs used i j pI dir spacing (List.range fs.length)
    if patternFeatures.length < MIN_PATTERN_COUNT then none
    else
      let sorted := sortByKey (fun idx => distAlongLine pI dir (cs.getD idx ⟨0, 0, 0⟩))
        patternFeatures
      let spacings := consecutiveDists cs sorted
      let avgSpacing := spacings.sum / (spacings.length : ℝ)
      let maxDeviation := listMax (spacings.map (fun s => |s - avgSpacing|))
      if maxDeviation < POSITION_TOLERANCE then
        some (⟨PatternType.LINEAR,
               sorted.map (fun idx => (fs.getD idx default).featureId),
               sorted.length, avgSpacing, 0, none, some (PatternDirection.vec dir),
               1 - maxDeviation / avgSpacing⟩,
              sorted)
      else none

/-- The `for j in range(i + 1, ...)` loop of `detect_linear_patterns`:
scan the remaining `j` candidates, stopping (`break`) at the first pair
that yields a pattern. -/
def linLoopJ (fs : List Feature) (cs : List Pt) (i : ℕ) :
    List ℕ → List ℕ → List FeaturePattern → List ℕ × List FeaturePattern
  | [], used, pats => (used, pats)
  | j :: js, used, pats =>
      if j ∈ used then linLoopJ fs cs i js used pats
      else
        match tryPair fs cs used i j with
        | none => linLoopJ fs cs i js used pats
        | some (p, pf) => (used ++ pf, pats ++ [p])

/-- The outer `for i in range(...)` loop of `detect_linear_patterns`. -/
def linLoopI (fs : List Feature) (cs : List Pt) :
    List ℕ → List ℕ → List FeaturePattern → List FeaturePattern
  | [], _, pats => pats
  | i :: is, used, pats =>
      if i ∈ used then linLoopI fs cs is used pats
      else
        let r := linLoopJ fs cs i (List.range' (i + 1) (fs.length - (i + 1))) used pats
        linLoopI fs cs is r.1 r.2

/-- `PatternRecognizer.detect_linear_patterns`. -/
def detectLinearPatterns (fs : List Feature) : List FeaturePattern :=
  if fs.length < MIN_PATTERN_COUNT then []
  else linLoopI fs (fs.map getFeatureCenter) (List.range fs.length) [] []

/-- `PatternRecognizer._calculate_circle_center_3d`: planar three-point
circle fit in XY (Z averaged), `None` on a near-collinear triple. -/
def calcCircleCenter3d (p1 p2 p3 : Pt) : Option Pt :=
  let d := 2 * (p1.x * (p2.y - p3.y) + p2.x * (p3.y - p1.y) + p3.x * (p1.y - p2.y))
  if |d| < 0.001 then none
  else
    some ⟨((p1.x ^ 2 + p1.y ^ 2) * (p2.y - p3.y) + (p2.x ^ 2 + p2.y ^ 2) * (p3.y - p1.y) +
             (p3.x ^ 2 + p3.y ^ 2) * (p1.y - p2.y)) / d,
          ((p1.x ^ 2 + p1.y ^ 2) * (p3.x - p2.x) + (p2.x ^ 2 + p2.y ^ 2) * (p1.x - p3.x) +
             (p3.x ^ 2 + p3.y ^ 2) * (p2.x - p1.x)) / d,
          (p1.z + p2.z + p3.z) / 3⟩

/-- The `for m in range(len(features))` loop of `detect_circular_patterns`:
extend the accumulated member list with every index whose distance to the
fitted center is within tolerance of the radius.  The Python code tests
membership against the growing `pattern_features` list, so the accumulator
is threaded through. -/
def circCollect (cs : List Pt) (cc : Pt) (radius : ℝ) :
    List ℕ → List ℕ → List ℕ
  | acc, [] => acc
  | acc, m :: ms =>
      if m ∈ acc then circCollect cs cc radius acc ms
      else if |dist3 (cs.getD m ⟨0, 0, 0⟩) cc - radius| < POSITION_TOLERANCE then
        circCollect cs cc radius (acc ++ [m]) ms
      else circCollect cs cc radius acc ms

/-- The ordered triples `(i, j, k)`, `i < j < k`, visited by the three
nested loops of `detect_circular_patterns`, in visit order. -/
def circTriples (n : ℕ) : List (ℕ × ℕ × ℕ) :=
  (List.range n).flatMap fun i =>
    (List.range' (i + 1) (n - (i + 1))).flatMap fun j =>
      (List.range' (j + 1) (n - (j + 1))).map fun k => (i, j, k)

/-- The triple-scan of `detect_circular_patterns`: the first triple whose
circle fit succeeds yields the (single) returned circular pattern. -/
def circLoop (fs : List Feature) (cs : List Pt) :
    List (ℕ × ℕ × ℕ) → List FeaturePattern
  | [] => []
  | (i, j, k) :: rest =>
      match calcCircleCenter3d (cs.getD i ⟨0, 0, 0⟩) (cs.getD j ⟨0, 0, 0⟩)
          (cs.getD k ⟨0, 0, 0⟩) with
      | none => circLoop fs cs rest
      | some circleCenter =>
          let radius := dist3 (cs.getD i ⟨0, 0, 0⟩) circleCenter
          let patternFeatures :=
            circCollect cs circleCenter radius [i, j, k] (List.range fs.length)
          if 3 ≤ patternFeatures.length then
            let avgAngle : ℝ :=
              if 0 < patternFeatures.length then 360 / (patternFeatures.length : ℝ) else 0
            [⟨PatternType.CIRCULAR,
              patternFeatures.map (fun idx => (fs.getD idx default).featureId),
              patternFeatures.length, 0, avgAngle, some circleCenter, none, 0.9⟩]
          else circLoop fs cs rest

/-- `PatternRecognizer.detect_circular_patterns`. -/
def detectCircularPatterns (fs : List Feature) : List FeaturePattern :=
  if fs.length < 3 then []
  else circLoop fs (fs.map getFeatureCenter) (circTriples fs.length)

/-- The ordered pairs `(i, j)`, `i < j`, visited by the pairwise loops of
`detect_grid_patterns` and `analyze_adjacency`, in visit order. -/
def upperPairs (n : ℕ) : List (ℕ × ℕ) :=
  (List.range n).flatMap fun i =>
    (List.range' (i + 1) (n - (i + 1))).map fun j => (i, j)

/-- The pairwise X/Y spacing collection of `detect_grid_patterns`:
for same-Z-plane pairs, collect `|Δx|` and `|Δy|` above `0.1`. -/
def gridPairLoop (cs : List Pt) : List (ℕ × ℕ) → List ℝ × List ℝ → List ℝ × List ℝ
  | [], acc => acc
  | (i, j) :: rest, (xs, ys) =>
      let cI := cs.getD i ⟨0, 0, 0⟩
      let cJ := cs.getD j ⟨0, 0, 0⟩
      let dx := |cJ.x - cI.x|
      let dy := |cJ.y - cI.y|
      let dz := |cJ.z - cI.z|
      if dz < POSITION_TOLERANCE then
        gridPairLoop cs rest
          ((if 0.1 < dx then xs ++ [dx] else xs), (if 0.1 < dy then ys ++ [dy] else ys))
      else gridPairLoop cs rest (xs, ys)

/-- One step of the grouping loop of `_find_dominant_spacing`: append the
spacing to the first group whose key is within tolerance, else open a new
group keyed by the spacing itself (groups are kept in insertion order,
like a Python dict). -/
def groupInsert : List (ℝ × List ℝ) → ℝ → List (ℝ × List ℝ)
  | [], s => [(s, [s])]
  | (k, g) :: rest, s =>
      if |s - k| < POSITION_TOLERANCE then (k, g ++ [s]) :: rest
      else (k, g) :: groupInsert rest s

/-- Python's `max(groups, key=len)`: the first group of maximal length. -/
def maxByLen : List (List ℝ) → List ℝ
  | [] => []
  | g :: gs => gs.foldl (fun best cur => if best.length < cur.length then cur else best) g

/-- `PatternRecognizer._find_dominant_spacing`. -/
def findDominantSpacing (spacings : List ℝ) : Option ℝ :=
  if spacings = [] then none
  else
    let maxGroup := maxByLen ((spacings.foldl groupInsert []).map Prod.snd)
    if 2 ≤ maxGroup.length then some (maxGroup.sum / (maxGroup.length : ℝ)) else none

/-- `PatternRecognizer.detect_grid_patterns`.  The Python guard
`if x_spacing and y_spacing` is float truthiness: it also fails on `0.0`. -/
def detectGridPatterns (fs : List Feature) : List FeaturePattern :=
  if fs.length < 4 then []
  else
    let cs := fs.map getFeatureCenter
    let sp := gridPairLoop cs (upperPairs cs.length) ([], [])
    if sp.1 ≠ [] ∧ sp.2 ≠ [] then
      match findDominantSpacing sp.1, findDominantSpacing sp.2 with
      | some xSpacing, some ySpacing =>
          if xSpacing ≠ 0 ∧ ySpacing ≠ 0 then
            let gridFeatures := List.range fs.length
            if 4 ≤ gridFeatures.length then
              [⟨PatternType.GRID,
                gridFeatures.map (fun idx => (fs.getD idx default).featureId),
                gridFeatures.length, min xSpacing ySpacing, 0, none, none, 0.8⟩]
            else []
          else []
      | _, _ => []
    else []

/-- Reflect a center across one of the axis-aligned mirror planes of
`detect_mirror_patterns` (`flip_axis` 2 = XY plane, 1 = XZ, 0 = YZ). -/
def mirrorFlip (flipAxis : ℕ) (p : Pt) : Pt :=
  if flipAxis = 2 then ⟨p.x, p.y, -p.z⟩
  else if flipAxis = 1 then ⟨p.x, -p.y, p.z⟩
  else ⟨-p.x, p.y, p.z⟩

/-- The inner `for j in range(i + 1, ...)` loop of
`detect_mirror_patterns`: first unused `j` within tolerance of the
mirrored position. -/
def mirrorFindJ (cs : List Pt) (used : List ℕ) (mirrored : Pt) : List ℕ → Option ℕ
  | [] => none
  | j :: js =>
      if j ∈ used then mirrorFindJ cs used mirrored js
      else if dist3 mirrored (cs.getD j ⟨0, 0, 0⟩) < POSITION_TOLERANCE then some j
      else mirrorFindJ cs used mirrored js

/-- The outer `for i` loop of `detect_mirror_patterns` for one mirror
plane, accumulating matched pairs and the used set. -/
def mirrorLoopI (cs : List Pt) (flipAxis : ℕ) :
    List ℕ → List ℕ → List (ℕ × ℕ) → List (ℕ × ℕ)
  | [], _, pairs => pairs
  | i :: is, used, pairs =>
      if i ∈ used then mirrorLoopI cs flipAxis is used pairs
      else
        let mirrored := mirrorFlip flipAxis (cs.getD i ⟨0, 0, 0⟩)
        match mirrorFindJ cs used mirrored (List.range' (i + 1) (cs.length - (i + 1))) with
        | some j => mirrorLoopI cs flipAxis is (used ++ [i, j]) (pairs ++ [(i, j)])
        | none => mirrorLoopI cs flipAxis is used pairs

/-- `PatternRecognizer.detect_mirror_patterns`. -/
def detectMirrorPatterns (fs : List Feature) : List FeaturePattern :=
  if fs.length < 2 then []
  else
    let cs := fs.map getFeatureCenter
    [("XY", 2), ("XZ", 1), ("YZ", 0)].flatMap fun plane =>
      let pairs := mirrorLoopI cs plane.2 (List.range fs.length) [] []
      if 1 ≤ pairs.length then
        [⟨PatternType.MIRROR,
          pairs.flatMap (fun pr => [(fs.getD pr.1 default).featureId,
                                    (fs.getD pr.2 default).featureId]),
          (pairs.flatMap (fun pr => [(fs.getD pr.1 default).featureId,
                                     (fs.getD pr.2 default).featureId])).length,
          0, 0, none, some (PatternDirection.plane plane.1), 0.85⟩]
      else []

/-- `PatternRecognizer._group_features_by_type`, keys only: the distinct
`feature_type.value` strings in first-occurrence order (Python dict
insertion order). -/
def groupTypes (fs : List Feature) : List String :=
  fs.foldl (fun acc f => if f.featureType ∈ acc then acc else acc ++ [f.featureType]) []

/-- `PatternRecognizer.recognize_all_patterns`: per type group of size at
least `MIN_PATTERN_COUNT`, run the four detectors and concatenate. -/
def recognizeAllPatterns (fs : List Feature) : List FeaturePattern :=
  (groupTypes fs).flatMap fun t =>
    let g := fs.filter fun f => f.featureType = t
    if g.length < MIN_PATTERN_COUNT then []
    else
      detectLinearPatterns g ++ detectCircularPatterns g ++
        detectGridPatterns g ++ detectMirrorPatterns g

/-- The `ClassificationResult` dataclass of `advanced_algorithms.py`
(the `reasoning` strings, which only echo the numbers, are not modelled). -/
structure ClassificationResult where
  featureId : ℕ
  primaryClassification : String
  confidence : ℝ
  alternativeClassifications : List (String × ℝ)

/-- The aspect ratio computed by `FeatureClassifier.fuzzy_classify`:
`depth / (diameter + 0.001)` with dictionary defaults `0` and `1`. -/
def aspectRatio (depth diameter : Option ℝ) : ℝ :=
  depth.getD 0 / (diameter.getD 1 + 0.001)

/-- Hole membership function of `fuzzy_classify`: 1 above ratio 2, a
linear ramp on (1, 2], 0 at or below 1. -/
def holeMembership (r : ℝ) : ℝ :=
  if 2 < r then 1 else if 1 < r then (r - 1) / 1 else 0

/-- Pocket membership function of `fuzzy_classify`: 1 below ratio 0.5, a
linear ramp on [0.5, 1), 0 at or above 1. -/
def pocketMembership (r : ℝ) : ℝ :=
  if r < 0.5 then 1 else if r < 1 then (1 - r) / 0.5 else 0

/-- Python's `max(memberships.items(), key=...)`: first entry of maximal
value, in insertion order. -/
def maxBySnd (a : String × ℝ) (l : List (String × ℝ)) : String × ℝ :=
  l.foldl (fun best cur => if best.2 < cur.2 then cur else best) a

/-- `FeatureClassifier.fuzzy_classify` on a feature-properties dictionary
holding optional `id`, `depth` and `diameter` entries. -/
def fuzzyClassify (featId : Option ℕ) (depth diameter : Option ℝ) : ClassificationResult :=
  let r := aspectRatio depth diameter
  let memberships : List (String × ℝ) :=
    [("hole", holeMembership r), ("pocket", pocketMembership r)]
  let primary := maxBySnd ("hole", holeMembership r) [("pocket", pocketMembership r)]
  let alternatives :=
    memberships.filter fun kv => 0.3 < kv.2 ∧ kv.1 ≠ primary.1
  ⟨featId.getD 0, primary.1, primary.2, alternatives⟩

/-- The `FeatureRelationship` dataclass of `advanced_algorithms.py`. -/
structure FeatureRelationship where
  feature1Id : ℕ
  feature2Id : ℕ
  relationshipType : String
  strength : ℝ

/-- `self.proximity_threshold` of `AdjacencyAnalyzer.__init__`. -/
def proximityThreshold : ℝ := 5.0

/-- `AdjacencyAnalyzer._calculate_distance`: the placeholder constant. -/
def calcDistance (f1 f2 : Feature) : ℝ := 10.0

/-- `AdjacencyAnalyzer._check_containment`: the placeholder `False`. -/
def checkContainment (f1 f2 : Feature) : Bool := false

/-- `AdjacencyAnalyzer._check_overlap`: the placeholder `False`. -/
def checkOverlap (f1 f2 : Feature) : Bool := false

/-- The relationship, if any, that `analyze_adjacency` produces for one
ordered pair of features. -/
def pairRelationship (f1 f2 : Feature) : Option FeatureRelationship :=
  let distance := calcDistance f1 f2
  if distance < proximityThreshold then
    some ⟨f1.featureId, f2.featureId, "adjacent", 1 - distance / proximityThreshold⟩
  else if checkContainment f1 f2 then
    some ⟨f1.featureId, f2.featureId, "contained", 1.0⟩
  else if checkOverlap f1 f2 then
    some ⟨f1.featureId, f2.featureId, "overlapping", 0.8⟩
  else none

/-- `AdjacencyAnalyzer.analyze_adjacency`: scan all pairs `i < j`. -/
def analyzeAdjacency (fs : List Feature) : List FeatureRelationship :=
  (upperPairs fs.length).foldl
    (fun acc pr =>
      match pairRelationship (fs.getD pr.1 default) (fs.getD pr.2 default) with
      | some rel => acc ++ [rel]
      | none => acc)
    []

/-- The inner `for rel in relationships` loop of `find_feature_clusters`,
growing one cluster and the visited set. -/
def clusterRelLoop (fid : ℕ) :
    List FeatureRelationship → List ℕ → List ℕ → List ℕ × List ℕ
  | [], visited, cluster => (visited, cluster)
  | rel :: rels, visited, cluster =>
      if rel.feature1Id = fid ∧ rel.feature2Id ∉ visited then
        clusterRelLoop fid rels (visited ++ [rel.feature2Id]) (cluster ++ [rel.feature2Id])
      else if rel.feature2Id = fid ∧ rel.feature1Id ∉ visited then
        clusterRelLoop fid rels (visited ++ [rel.feature1Id]) (cluster ++ [rel.feature1Id])
      else clusterRelLoop fid rels visited cluster

/-- The outer `for feature in features` loop of `find_feature_clusters`. -/
def clusterLoop (rels : List FeatureRelationship) :
    List Feature → List ℕ → List (List ℕ) → List (List ℕ)
  | [], _, clusters => clusters
  | f :: fsRest, visited, clusters =>
      if f.featureId ∈ visited then clusterLoop rels fsRest visited clusters
      else
        let r := clusterRelLoop f.featureId rels (visited ++ [f.featureId]) [f.featureId]
        if 1 < r.2.length then clusterLoop rels fsRest r.1 (clusters ++ [r.2])
        else clusterLoop rels fsRest r.1 clusters

/-- `AdjacencyAnalyzer.find_feature_clusters`. -/
def findFeatureClusters (fs : List Feature) : List (List ℕ) :=
  clusterLoop (analyzeAdjacency fs) fs [] []

/-- The surface classification of one B-rep face, as read off
`BRepAdaptor_Surface.GetType()` by the analyzers: the cone case carries
`SemiAngle()` (radians) and `RefRadius()`. -/
inductive Face where
  | plane
  | cylinder (radius : ℝ)
  | cone (semiAngle : ℝ) (refRadius : ℝ)
  | other

/-- Python's `math.degrees`. -/
def degrees (x : ℝ) : ℝ := x * 180 / Real.pi

/-- The face-explorer loop of `GeometryAnalyzer.measure_draft_angles`,
appending `math.degrees(cone.SemiAngle())` for every conical face. -/
def draftLoop (acc : List ℝ) : List Face → List ℝ
  | [] => acc
  | Face.cone a _ :: rest => draftLoop (acc ++ [degrees a]) rest
  | _ :: rest => draftLoop acc rest

/-- `GeometryAnalyzer.measure_draft_angles` over the faces of a shape. -/
def measureDraftAngles (faces : List Face) : List ℝ :=
  draftLoop [] faces

/-- `True` exactly on conical faces. -/
def isCone : Face → Bool
  | Face.cone _ _ => true
  | _ => false

/-- Modelled from the spec (as amended by `measure_draft_angles`'s code):
one draft-angle entry per conical face, equal to the cone's semi-angle
converted to degrees. -/
def draftAnglesSpec (faces : List Face) : List ℝ :=
  faces.filterMap fun f =>
    match f with
    | Face.cone a _ => some (degrees a)
    | _ => none

/-- The fields of `AdvancedMachiningFeature` that
`recognize_countersinks` populates. -/
structure AdvancedMachiningFeature where
  featureId : ℕ
  featureType : String
  diameter : ℝ
  sinkAngle : ℝ
  confidenceScore : ℝ
  complexityRating : ℕ

/-- `AdvancedFeatureRecognitionEngine.recognize_countersinks`: the
face-explorer loop, threading `self.feature_counter`. -/
def recognizeCountersinks (counter : ℕ) : List Face → List AdvancedMachiningFeature
  | [] => []
  | Face.cone semiAngle refRadius :: rest =>
      let sinkAngle := degrees semiAngle * 2
      if 75 < sinkAngle ∧ sinkAngle < 125 then
        ⟨counter, "Countersink Hole", 2 * refRadius, sinkAngle, 0.95, 3⟩ ::
          recognizeCountersinks (counter + 1) rest
      else recognizeCountersinks counter rest
  | _ :: rest => recognizeCountersinks counter rest

/-- The countersink data `(full angle, ref radius)` of a conical face
whose full angle lies strictly between 75 and 125 degrees. -/
def coneSinkData : Face → Option (ℝ × ℝ)
  | Face.cone a r =>
      if 75 < degrees a * 2 ∧ degrees a * 2 < 125 then some (degrees a * 2, r) else none
  | _ => none

/-- Modelled from the spec (as amended by `recognize_countersinks`'s
code): the `k`-th conical face with full angle strictly inside
(75°, 125°) yields a countersink feature with id `counter + k`, diameter
twice the reference radius, confidence 0.95 and complexity 3. -/
def countersinkSpec (counter : ℕ) (faces : List Face) : List AdvancedMachiningFeature :=
  (faces.filterMap coneSinkData).enum.map fun p =>
    ⟨counter + p.1, "Countersink Hole", 2 * p.2.2, p.2.1, 0.95, 3⟩

/-! ### General helper lemmas -/

theorem foldl_keep {α : Type} {β : Type} : ∀ (l : List β) (acc : α),
    l.foldl (fun a _ => a) acc = acc
  | [], _ => rfl
  | _ :: rest, acc => foldl_keep rest acc

theorem sqrt_eval {a b : ℝ} (hb : 0 ≤ b) (h : b ^ 2 = a) : Real.sqrt a = b := by
  rw [← h]
  exact Real.sqrt_sq hb

theorem sqrt_not_lt {a b : ℝ} (hb : 0 ≤ b) (h : b ^ 2 ≤ a) : ¬Real.sqrt a < b := by
  have h1 : Real.sqrt (b ^ 2) ≤ Real.sqrt a := Real.sqrt_le_sqrt h
  rw [Real.sqrt_sq hb] at h1
  exact not_lt.mpr h1

/-! ### C8: the adjacency analyzer can never produce a relationship -/

theorem pairRelationship_eq_none (f1 f2 : Feature) : pairRelationship f1 f2 = none := by
  simp only [pairRelationship, calcDistance, proximityThreshold, checkContainment,
    checkOverlap]
  norm_num

theorem analyzeAdjacency_foldl (fs : List Feature) (prs : List (ℕ × ℕ))
    (acc : List FeatureRelationship) :
    prs.foldl
      (fun acc pr =>
        match pairRelationship (fs.getD pr.1 default) (fs.getD pr.2 default) with
        | some rel => acc ++ [rel]
        | none => acc)
      acc = acc := by
  simp only [pairRelationship_eq_none]
  exact foldl_keep prs acc

theorem analyzeAdjacency_eq_nil (fs : List Feature) : analyzeAdjacency fs = [] :=
  analyzeAdjacency_foldl fs (upperPairs fs.length) []

theorem clusterLoop_nil_rels (fs : List Feature) :
    ∀ (visited : List ℕ) (clusters : List (List ℕ)),
      clusterLoop [] fs visited clusters = clusters := by
  induction fs with
  | nil => intro visited clusters; rfl
  | cons f rest ih =>
      intro visited clusters
      by_cases h : f.featureId ∈ visited
      · simp only [clusterLoop, if_pos h]
        exact ih visited clusters
      · simp only [clusterLoop, if_neg h, clusterRelLoop]
        norm_num
        exact ih (visited ++ [f.featureId]) clusters

/-- C8: `AdjacencyAnalyzer.analyze_adjacency` always returns the empty
relationship list and `find_feature_clusters` always returns no clusters:
the placeholder distance 10.0 never beats the 5.0 proximity threshold and
the containment and overlap checks are constantly `False`. -/
theorem adjacency_always_empty (fs : List Feature) :
    analyzeAdjacency fs = [] ∧ findFeatureClusters fs = [] := by
  refine ⟨analyzeAdjacency_eq_nil fs, ?_⟩
  unfold findFeatureClusters
  rw [analyzeAdjacency_eq_nil]
  exact clusterLoop_nil_rels fs [] []

/-! ### C6: fuzzy membership monotonicity -/

theorem holeMembership_mono {r1 r2 : ℝ} (h : r1 ≤ r2) :
    holeMembership r1 ≤ holeMembership r2 := by
  unfold holeMembership
  split_ifs <;> norm_num <;> linarith

theorem pocketMembership_anti {r1 r2 : ℝ} (h : r1 ≤ r2) :
    pocketMembership r2 ≤ pocketMembership r1 := by
  unfold pocketMembership
  split_ifs <;> norm_num <;> linarith

theorem aspectRatio_mono {d1 d2 diameter : ℝ} (hd : 0 < diameter) (h : d1 ≤ d2) :
    aspectRatio (some d1) (some diameter) ≤ aspectRatio (some d2) (some diameter) := by
  unfold aspectRatio
  simp only [Option.getD_some]
  have hpos : (0 : ℝ) < diameter + 0.001 := by linarith
  exact div_le_div_of_nonneg_right h hpos.le

/-- C6: for every fixed positive diameter, the hole membership computed by
`fuzzy_classify` is non-decreasing in depth and the pocket membership is
non-increasing in depth. -/
theorem fuzzy_memberships_monotone (diameter : ℝ) (hd : 0 < diameter)
    (d1 d2 : ℝ) (h : d1 ≤ d2) :
    holeMembership (aspectRatio (some d1) (some diameter)) ≤
        holeMembership (aspectRatio (some d2) (some diameter)) ∧
      pocketMembership (aspectRatio (some d2) (some diameter)) ≤
        pocketMembership (aspectRatio (some d1) (some diameter)) :=
  ⟨holeMembership_mono (aspectRatio_mono hd h),
   pocketMembership_anti (aspectRatio_mono hd h)⟩

/-- Witness for C6 at diameter 1 and depths 0 ≤ 3. -/
theorem fuzzy_memberships_monotone_witness :
    (0 : ℝ) < 1 ∧ (0 : ℝ) ≤ 3 ∧
      (holeMembership (aspectRatio (some (0 : ℝ)) (some 1)) ≤
          holeMembership (aspectRatio (some 3) (some 1)) ∧
        pocketMembership (aspectRatio (some 3) (some 1)) ≤
          pocketMembership (aspectRatio (some (0 : ℝ)) (some 1))) :=
  ⟨by norm_num, by norm_num,
   fuzzy_memberships_monotone 1 (by norm_num) 0 3 (by norm_num)⟩

/-! ### C4: draft angles of conical faces -/

theorem draftLoop_eq (faces : List Face) :
    ∀ acc : List ℝ, draftLoop acc faces = acc ++ draftAnglesSpec faces := by
  induction faces with
  | nil => intro acc; simp [draftLoop, draftAnglesSpec]
  | cons f rest ih =>
      intro acc
      cases f with
      | cone a r =>
          simp only [draftLoop, draftAnglesSpec, List.filterMap_cons]
          rw [ih]
          simp [draftAnglesSpec]
      | plane => simpa [draftLoop, draftAnglesSpec, List.filterMap_cons] using ih acc
      | cylinder radius =>
          simpa [draftLoop, draftAnglesSpec, List.filterMap_cons] using ih acc
      | other => simpa [draftLoop, draftAnglesSpec, List.filterMap_cons] using ih acc

theorem draftAnglesSpec_length (faces : List Face) :
    (draftAnglesSpec faces).length = (faces.filter isCone).length := by
  induction faces with
  | nil => rfl
  | cons f rest ih =>
      cases f <;> simp [draftAnglesSpec, List.filterMap_cons, isCone, ih,
        List.filter_cons] <;> simp [draftAnglesSpec] at ih <;> omega

/-- Counterexample to C4 as stated: for a single conical face of
semi-angle π/4 the reported draft angle is 45°, not twice the semi-angle
(which would be 90°). -/
theorem draft_angle_not_doubled :
    measureDraftAngles [Face.cone (Real.pi / 4) 1] = [45] ∧
      (45 : ℝ) ≠ 2 * degrees (Real.pi / 4) := by
  have hdeg : degrees (Real.pi / 4) = 45 := by
    unfold degrees
    field_simp
    ring
  constructor
  · unfold measureDraftAngles
    rw [draftLoop_eq]
    simp [draftAnglesSpec, hdeg]
  · rw [hdeg]
    norm_num

/-- C4 (amended): `measure_draft_angles` returns one entry per conical
face, and that entry is the cone's semi-angle (not twice it) converted to
degrees. -/
theorem measureDraftAngles_spec (faces : List Face) :
    measureDraftAngles faces = draftAnglesSpec faces ∧
      (measureDraftAngles faces).length = (faces.filter isCone).length := by
  have h : measureDraftAngles faces = draftAnglesSpec faces := by
    unfold measureDraftAngles
    simpa using draftLoop_eq faces []
  exact ⟨h, by rw [h]; exact draftAnglesSpec_length faces⟩

/-! ### C7: countersink emission condition -/

/-- Counterexample to C7 as stated: a conical face whose full angle is
exactly 75° (semi-angle 5π/24) yields no countersink feature, although
75° lies in the closed interval [75°, 125°]. -/
theorem countersink_boundary_excluded :
    recognizeCountersinks 0 [Face.cone (5 * Real.pi / 24) 2] = [] ∧
      degrees (5 * Real.pi / 24) * 2 = 75 := by
  have hdeg : degrees (5 * Real.pi / 24) * 2 = 75 := by
    unfold degrees
    field_simp
    ring
  refine ⟨?_, hdeg⟩
  have hneg : ¬(75 < degrees (5 * Real.pi / 24) * 2 ∧
      degrees (5 * Real.pi / 24) * 2 < 125) := by
    rw [hdeg]
    norm_num
  unfold recognizeCountersinks
  rw [if_neg hneg]
  rfl

theorem countersinkSpec_cons_none {f : Face} (hf : coneSinkData f = none)
    (counter : ℕ) (rest : List Face) :
    countersinkSpec counter (f :: rest) = countersinkSpec counter rest := by
  unfold countersinkSpec
  simp only [List.filterMap_cons, hf]

theorem countersinkSpec_cons_some {f : Face} {v : ℝ × ℝ}
    (hf : coneSinkData f = some v) (counter : ℕ) (rest : List Face) :
    countersinkSpec counter (f :: rest) =
      ⟨counter, "Countersink Hole", 2 * v.2, v.1, 0.95, 3⟩ ::
        countersinkSpec (counter + 1) rest := by
  unfold countersinkSpec
  simp only [List.filterMap_cons, hf, List.enum_cons', List.map_cons, List.map_map]
  refine congrArg₂ List.cons (by simp) ?_
  apply List.map_congr_left
  rintro ⟨n, w⟩ _
  simp only [Function.comp_apply, Prod.map_apply, id_eq]
  have hn : counter + (n + 1) = counter + 1 + n := by omega
  rw [hn]

/-- C7 (amended): `recognize_countersinks` emits one countersink feature
per conical face whose full angle lies strictly between 75° and 125°
(boundary angles excluded), with ids counted up from `counter`. -/
theorem recognizeCountersinks_spec (counter : ℕ) (faces : List Face) :
    recognizeCountersinks counter faces = countersinkSpec counter faces := by
  induction faces generalizing counter with
  | nil => rfl
  | cons f rest ih =>
      cases f with
      | cone a r =>
          by_cases h : 75 < degrees a * 2 ∧ degrees a * 2 < 125
          · have hf : coneSinkData (Face.cone a r) = some (degrees a * 2, r) := by
              simp only [coneSinkData, if_pos h]
            rw [countersinkSpec_cons_some hf]
            simp only [recognizeCountersinks, if_pos h, ih]
          · have hf : coneSinkData (Face.cone a r) = none := by
              simp only [coneSinkData, if_neg h]
            rw [countersinkSpec_cons_none hf]
            simp only [recognizeCountersinks, if_neg h, ih]
      | plane =>
          have hf : coneSinkData Face.plane = none := rfl
          rw [countersinkSpec_cons_none hf]
          simpa [recognizeCountersinks] using ih counter
      | cylinder radius =>
          have hf : coneSinkData (Face.cylinder radius) = none := rfl
          rw [countersinkSpec_cons_none hf]
          simpa [recognizeCountersinks] using ih counter
      | other =>
          have hf : coneSinkData Face.other = none := rfl
          rw [countersinkSpec_cons_none hf]
          simpa [recognizeCountersinks] using ih counter

/-! ### C9: two distant same-type features always form a linear pattern -/

theorem tryPair_two (f g : Feature) (p q : Pt)
    (h : 0.1 ≤ Real.sqrt ((q.x - p.x) ^ 2 + (q.y - p.y) ^ 2 + (q.z - p.z) ^ 2)) :
    tryPair [f, g] [p, q] [] 0 1 =
      some (⟨PatternType.LINEAR, [f.featureId, g.featureId], 2,
        Real.sqrt ((q.x - p.x) ^ 2 + (q.y - p.y) ^ 2 + (q.z - p.z) ^ 2), 0, none,
        some (PatternDirection.vec
          ⟨(q.x - p.x) / Real.sqrt ((q.x - p.x) ^ 2 + (q.y - p.y) ^ 2 + (q.z - p.z) ^ 2),
           (q.y - p.y) / Real.sqrt ((q.x - p.x) ^ 2 + (q.y - p.y) ^ 2 + (q.z - p.z) ^ 2),
           (q.z - p.z) / Real.sqrt ((q.x - p.x) ^ 2 + (q.y - p.y) ^ 2 + (q.z - p.z) ^ 2)⟩),
        1⟩, [0, 1]) := by
  have hs0 : (0 : ℝ) <
      Real.sqrt ((q.x - p.x) ^ 2 + (q.y - p.y) ^ 2 + (q.z - p.z) ^ 2) := by linarith
  have hrange : List.range (List.length [f, g]) = [0, 1] := rfl
  simp only [tryPair, hrange, MIN_PATTERN_COUNT, POSITION_TOLERANCE]
  simp only [List.getD_cons_zero, List.getD_cons_succ]
  rw [if_neg (not_lt.mpr h)]
  simp only [collectOnLine, List.getD_cons_zero, List.getD_cons_succ]
  norm_num
  simp only [sortByKey, List.foldl_cons, List.foldl_nil, insertByKey]
  have gq : ([p, q][1]?).getD (⟨0, 0, 0⟩ : Pt) = q := rfl
  have gp : ([p, q][0]?).getD (⟨0, 0, 0⟩ : Pt) = p := rfl
  rw [gq, gp]
  have hkey : ¬(distAlongLine p
      ⟨(q.x - p.x) / Real.sqrt ((q.x - p.x) ^ 2 + (q.y - p.y) ^ 2 + (q.z - p.z) ^ 2),
       (q.y - p.y) / Real.sqrt ((q.x - p.x) ^ 2 + (q.y - p.y) ^ 2 + (q.z - p.z) ^ 2),
       (q.z - p.z) / Real.sqrt ((q.x - p.x) ^ 2 + (q.y - p.y) ^ 2 + (q.z - p.z) ^ 2)⟩ q <
      distAlongLine p
      ⟨(q.x - p.x) / Real.sqrt ((q.x - p.x) ^ 2 + (q.y - p.y) ^ 2 + (q.z - p.z) ^ 2),
       (q.y - p.y) / Real.sqrt ((q.x - p.x) ^ 2 + (q.y - p.y) ^ 2 + (q.z - p.z) ^ 2),
       (q.z - p.z) / Real.sqrt ((q.x - p.x) ^ 2 + (q.y - p.y) ^ 2 + (q.z - p.z) ^ 2)⟩ p) := by
    unfold distAlongLine
    refine not_lt.mpr ?_
    have e0 : (p.x - p.x) *
          ((q.x - p.x) / Real.sqrt ((q.x - p.x) ^ 2 + (q.y - p.y) ^ 2 + (q.z - p.z) ^ 2)) +
        (p.y - p.y) *
          ((q.y - p.y) / Real.sqrt ((q.x - p.x) ^ 2 + (q.y - p.y) ^ 2 + (q.z - p.z) ^ 2)) +
        (p.z - p.z) *
          ((q.z - p.z) / Real.sqrt ((q.x - p.x) ^ 2 + (q.y - p.y) ^ 2 + (q.z - p.z) ^ 2)) =
        0 := by ring
    have e1 : (q.x - p.x) *
          ((q.x - p.x) / Real.sqrt ((q.x - p.x) ^ 2 + (q.y - p.y) ^ 2 + (q.z - p.z) ^ 2)) +
        (q.y - p.y) *
          ((q.y - p.y) / Real.sqrt ((q.x - p.x) ^ 2 + (q.y - p.y) ^ 2 + (q.z - p.z) ^ 2)) +
        (q.z - p.z) *
          ((q.z - p.z) / Real.sqrt ((q.x - p.x) ^ 2 + (q.y - p.y) ^ 2 + (q.z - p.z) ^ 2)) =
        ((q.x - p.x) ^ 2 + (q.y - p.y) ^ 2 + (q.z - p.z) ^ 2) /
          Real.sqrt ((q.x - p.x) ^ 2 + (q.y - p.y) ^ 2 + (q.z - p.z) ^ 2) := by ring
    rw [e0, e1]
    exact div_nonneg (by positivity) hs0.le
  rw [if_neg hkey]
  simp only [consecutiveDists, List.getD_cons_zero, List.getD_cons_succ, dist3]
  simp only [List.map_cons, List.map_nil, List.sum_cons, List.sum_nil, List.length_cons,
    List.length_nil, listMax, List.foldl_nil]
  norm_num

/-- C9: any two same-type features whose centers are at least 0.1 apart
are always reported as one linear pattern containing both ids, with
spacing equal to their distance and confidence exactly 1. -/
theorem two_features_linear_pattern (f g : Feature)
    (h : 0.1 ≤ dist3 (getFeatureCenter f) (getFeatureCenter g)) :
    detectLinearPatterns [f, g] =
      [⟨PatternType.LINEAR, [f.featureId, g.featureId], 2,
        dist3 (getFeatureCenter f) (getFeatureCenter g), 0, none,
        some (PatternDirection.vec
          ⟨((getFeatureCenter g).x - (getFeatureCenter f).x) /
              dist3 (getFeatureCenter f) (getFeatureCenter g),
           ((getFeatureCenter g).y - (getFeatureCenter f).y) /
              dist3 (getFeatureCenter f) (getFeatureCenter g),
           ((getFeatureCenter g).z - (getFeatureCenter f).z) /
              dist3 (getFeatureCenter f) (getFeatureCenter g)⟩),
        1⟩] := by
  have h' := h
  unfold dist3 at h'
  have hlen : ¬([f, g].length < MIN_PATTERN_COUNT) := by
    simp [MIN_PATTERN_COUNT]
  unfold detectLinearPatterns
  rw [if_neg hlen]
  have hmap : [f, g].map getFeatureCenter = [getFeatureCenter f, getFeatureCenter g] := rfl
  have hr : List.range ([f, g].length) = [0, 1] := rfl
  rw [hmap, hr]
  have hr1 : List.range' (0 + 1) ([f, g].length - (0 + 1)) = [1] := rfl
  simp only [linLoopI, List.not_mem_nil, if_false, hr1, linLoopJ]
  rw [tryPair_two f g (getFeatureCenter f) (getFeatureCenter g) h']
  simp only [List.mem_cons, List.not_mem_nil]
  norm_num [dist3]

/-- Witness for C9: two features at the origin and at (1,0,0), distance 1
apart, yield exactly one linear pattern. -/
theorem two_features_linear_pattern_witness :
    0.1 ≤ dist3 (getFeatureCenter ⟨7, "Hole", some ⟨0, 0, 0⟩⟩)
        (getFeatureCenter ⟨8, "Hole", some ⟨1, 0, 0⟩⟩) ∧
      detectLinearPatterns [⟨7, "Hole", some ⟨0, 0, 0⟩⟩, ⟨8, "Hole", some ⟨1, 0, 0⟩⟩] =
        [⟨PatternType.LINEAR, [7, 8], 2,
          dist3 (getFeatureCenter ⟨7, "Hole", some ⟨0, 0, 0⟩⟩)
            (getFeatureCenter ⟨8, "Hole", some ⟨1, 0, 0⟩⟩), 0, none,
          some (PatternDirection.vec
            ⟨(1 - 0) / dist3 (getFeatureCenter ⟨7, "Hole", some ⟨0, 0, 0⟩⟩)
                (getFeatureCenter ⟨8, "Hole", some ⟨1, 0, 0⟩⟩),
             (0 - 0) / dist3 (getFeatureCenter ⟨7, "Hole", some ⟨0, 0, 0⟩⟩)
                (getFeatureCenter ⟨8, "Hole", some ⟨1, 0, 0⟩⟩),
             (0 - 0) / dist3 (getFeatureCenter ⟨7, "Hole", some ⟨0, 0, 0⟩⟩)
                (getFeatureCenter ⟨8, "Hole", some ⟨1, 0, 0⟩⟩)⟩),
          1⟩] := by
  have hd : dist3 (getFeatureCenter ⟨7, "Hole", some ⟨0, 0, 0⟩⟩)
      (getFeatureCenter ⟨8, "Hole", some ⟨1, 0, 0⟩⟩) = 1 := by
    unfold dist3 getFeatureCenter
    rw [show ((⟨1, 0, 0⟩ : Pt).x - (⟨0, 0, 0⟩ : Pt).x) ^ 2 +
        ((⟨1, 0, 0⟩ : Pt).y - (⟨0, 0, 0⟩ : Pt).y) ^ 2 +
        ((⟨1, 0, 0⟩ : Pt).z - (⟨0, 0, 0⟩ : Pt).z) ^ 2 = 1 from by norm_num]
    exact Real.sqrt_one
  have h01 : (0.1 : ℝ) ≤ dist3 (getFeatureCenter ⟨7, "Hole", some ⟨0, 0, 0⟩⟩)
      (getFeatureCenter ⟨8, "Hole", some ⟨1, 0, 0⟩⟩) := by
    rw [hd]
    norm_num
  exact ⟨h01, two_features_linear_pattern _ _ h01⟩

/-! ### C3: four holes at x = 0, 10, 20, 30 form one linear pattern -/

set_option maxHeartbeats 2000000 in
/-- C3: an input group of exactly four same-type features centered at
(0,0,0), (10,0,0), (20,0,0), (30,0,0) produces exactly one linear pattern
holding all four ids, with spacing 10 and confidence 1 > 0.95. -/
theorem four_collinear_one_pattern (t : String) (a b c d : ℕ) :
    detectLinearPatterns
        [⟨a, t, some ⟨0, 0, 0⟩⟩, ⟨b, t, some ⟨10, 0, 0⟩⟩,
         ⟨c, t, some ⟨20, 0, 0⟩⟩, ⟨d, t, some ⟨30, 0, 0⟩⟩] =
      [⟨PatternType.LINEAR, [a, b, c, d], 4, 10, 0, none,
        some (PatternDirection.vec ⟨1, 0, 0⟩), 1⟩] := by
  have h100 : Real.sqrt 100 = 10 := sqrt_eval (by norm_num) (by norm_num)
  norm_num [detectLinearPatterns, MIN_PATTERN_COUNT, POSITION_TOLERANCE, linLoopI,
    linLoopJ, tryPair, collectOnLine, isOnLine, distAlongLine, sortByKey, insertByKey,
    consecutiveDists, listMax, dist3, getFeatureCenter, h100, Real.sqrt_zero,
    List.range_succ]

/-! ### C10: features without a center default to the origin -/

/-- C10: a feature whose geometry has no center entry is placed at
(0,0,0); a candidate pair with coincident centers is always skipped
(spacing below 0.1), so two centerless features alone never form a linear
pattern. -/
theorem missing_center_defaults_origin :
    (∀ f : Feature, f.geometry = none → getFeatureCenter f = ⟨0, 0, 0⟩) ∧
      (∀ (fs : List Feature) (cs : List Pt) (used : List ℕ) (i j : ℕ),
        cs.getD i ⟨0, 0, 0⟩ = cs.getD j ⟨0, 0, 0⟩ → tryPair fs cs used i j = none) ∧
      (∀ f g : Feature, f.geometry = none → g.geometry = none →
        detectLinearPatterns [f, g] = []) := by
  have part1 : ∀ f : Feature, f.geometry = none → getFeatureCenter f = ⟨0, 0, 0⟩ := by
    intro f hf
    unfold getFeatureCenter
    rw [hf]
  have part2 : ∀ (fs : List Feature) (cs : List Pt) (used : List ℕ) (i j : ℕ),
      cs.getD i ⟨0, 0, 0⟩ = cs.getD j ⟨0, 0, 0⟩ → tryPair fs cs used i j = none := by
    intro fs cs used i j heq
    have h0 : Real.sqrt (((cs.getD j ⟨0, 0, 0⟩).x - (cs.getD j ⟨0, 0, 0⟩).x) ^ 2 +
        ((cs.getD j ⟨0, 0, 0⟩).y - (cs.getD j ⟨0, 0, 0⟩).y) ^ 2 +
        ((cs.getD j ⟨0, 0, 0⟩).z - (cs.getD j ⟨0, 0, 0⟩).z) ^ 2) < 0.1 := by
      rw [show ((cs.getD j ⟨0, 0, 0⟩).x - (cs.getD j ⟨0, 0, 0⟩).x) ^ 2 +
          ((cs.getD j ⟨0, 0, 0⟩).y - (cs.getD j ⟨0, 0, 0⟩).y) ^ 2 +
          ((cs.getD j ⟨0, 0, 0⟩).z - (cs.getD j ⟨0, 0, 0⟩).z) ^ 2 = (0 : ℝ) from by ring,
        Real.sqrt_zero]
      norm_num
    simp only [tryPair, heq, if_pos h0]
  refine ⟨part1, part2, ?_⟩
  intro f g hf hg
  have hcf := part1 f hf
  have hcg := part1 g hg
  have hlen : ¬([f, g].length < MIN_PATTERN_COUNT) := by
    simp [MIN_PATTERN_COUNT]
  unfold detectLinearPatterns
  rw [if_neg hlen]
  have hmap : [f, g].map getFeatureCenter = [⟨0, 0, 0⟩, ⟨0, 0, 0⟩] := by
    simp [hcf, hcg]
  have hr : List.range ([f, g].length) = [0, 1] := rfl
  rw [hmap, hr]
  have htp : ∀ i j : ℕ, tryPair [f, g] [⟨0, 0, 0⟩, ⟨0, 0, 0⟩] [] i j = none := by
    intro i j
    apply part2
    have : ∀ k : ℕ, ([⟨0, 0, 0⟩, ⟨0, 0, 0⟩] : List Pt).getD k ⟨0, 0, 0⟩ = ⟨0, 0, 0⟩ := by
      intro k
      match k with
      | 0 => rfl
      | 1 => rfl
      | n + 2 => rfl
    rw [this i, this j]
  have hr1 : List.range' (0 + 1) ([f, g].length - (0 + 1)) = [1] := rfl
  have hr2 : List.range' (1 + 1) ([f, g].length - (1 + 1)) = [] := rfl
  simp only [linLoopI, linLoopJ, hr1, hr2, htp, List.not_mem_nil, if_false]

/-- Witness for C10 at two concrete centerless features. -/
theorem missing_center_defaults_origin_witness :
    getFeatureCenter ⟨1, "Hole", none⟩ = ⟨0, 0, 0⟩ ∧
      detectLinearPatterns [⟨1, "Hole", none⟩, ⟨2, "Hole", none⟩] = [] :=
  ⟨missing_center_defaults_origin.1 ⟨1, "Hole", none⟩ rfl,
   missing_center_defaults_origin.2.2 ⟨1, "Hole", none⟩ ⟨2, "Hole", none⟩ rfl rfl⟩

/-! ### C2: a feature can belong to several patterns of different types -/

set_option maxHeartbeats 2000000 in
/-- Counterexample to C2 as stated: two same-type features at (10,5,0)
and (-10,5,0) are returned both in a linear pattern and in a YZ mirror
pattern, so feature id 1 belongs to two returned patterns. -/
theorem feature_in_two_patterns :
    List.map FeaturePattern.featureIds
        (recognizeAllPatterns
          [⟨1, "Hole", some ⟨10, 5, 0⟩⟩, ⟨2, "Hole", some ⟨-10, 5, 0⟩⟩]) =
      [[1, 2], [1, 2]] ∧
      2 ≤ (recognizeAllPatterns
          [⟨1, "Hole", some ⟨10, 5, 0⟩⟩, ⟨2, "Hole", some ⟨-10, 5, 0⟩⟩]).countP
        (fun p => 1 ∈ p.featureIds) := by
  have h400 : Real.sqrt 400 = 20 := sqrt_eval (by norm_num) (by norm_num)
  have h500 : ¬Real.sqrt 500 < 0.5 := sqrt_not_lt (by norm_num) (by norm_num)
  have h500h : ¬Real.sqrt 500 < 1 / 2 := sqrt_not_lt (by norm_num) (by norm_num)
  constructor <;>
    norm_num [recognizeAllPatterns, groupTypes, detectLinearPatterns,
      detectCircularPatterns, detectGridPatterns, detectMirrorPatterns, mirrorLoopI,
      mirrorFindJ, mirrorFlip, linLoopI, linLoopJ, tryPair, collectOnLine, isOnLine,
      distAlongLine, sortByKey, insertByKey, consecutiveDists, listMax, dist3,
      getFeatureCenter, POSITION_TOLERANCE, MIN_PATTERN_COUNT, h400, h500, h500h,
      Real.sqrt_zero, List.countP, List.countP.go]

theorem insertByKey_perm (key : ℕ → ℝ) (a : ℕ) :
    ∀ l : List ℕ, (insertByKey key a l).Perm (a :: l)
  | [] => List.Perm.refl _
  | b :: bs => by
      unfold insertByKey
      split_ifs with h
      · exact List.Perm.refl _
      · exact ((insertByKey_perm key a bs).cons b).trans (List.Perm.swap a b bs)

theorem sortFoldl_perm (key : ℕ → ℝ) :
    ∀ (l acc : List ℕ),
      (l.foldl (fun acc a => insertByKey key a acc) acc).Perm (acc ++ l)
  | [], acc => by simp
  | a :: l, acc => by
      rw [List.foldl_cons]
      refine (sortFoldl_perm key l (insertByKey key a acc)).trans ?_
      refine ((insertByKey_perm key a acc).append_right l).trans ?_
      exact List.perm_middle.symm

theorem sortByKey_perm (key : ℕ → ℝ) (l : List ℕ) : (sortByKey key l).Perm l := by
  simpa using sortFoldl_perm key l []

theorem sortByKey_mem (key : ℕ → ℝ) (l : List ℕ) (x : ℕ) :
    x ∈ sortByKey key l ↔ x ∈ l :=
  (sortByKey_perm key l).mem_iff

theorem collectOnLine_sublist (cs : List Pt) (used : List ℕ) (i j : ℕ) (b dir : Pt)
    (sp : ℝ) : ∀ ks : List ℕ, (collectOnLine cs used i j b dir sp ks).Sublist ks
  | [] => List.Sublist.refl _
  | k :: ks => by
      unfold collectOnLine
      split_ifs with h1 h2
      · exact (collectOnLine_sublist cs used i j b dir sp ks).cons k
      · exact (collectOnLine_sublist cs used i j b dir sp ks).cons₂ k
      · exact (collectOnLine_sublist cs used i j b dir sp ks).cons k

theorem collectOnLine_mem (cs : List Pt) (used : List ℕ) (i j : ℕ) (b dir : Pt)
    (sp : ℝ) : ∀ ks : List ℕ, ∀ x ∈ collectOnLine cs used i j b dir sp ks,
      ¬(x = i ∨ x = j ∨ x ∈ used)
  | [] => by simp [collectOnLine]
  | k :: ks => by
      unfold collectOnLine
      split_ifs with h1 h2
      · exact collectOnLine_mem cs used i j b dir sp ks
      · intro x hx
        rcases List.mem_cons.mp hx with rfl | hx'
        · exact h1
        · exact collectOnLine_mem cs used i j b dir sp ks x hx'
      · exact collectOnLine_mem cs used i j b dir sp ks

theorem sorted_pf_spec (key : ℕ → ℝ) (coll : List ℕ) (n : ℕ) (used : List ℕ)
    (i j : ℕ) (hij : i ≠ j) (hi : i < n) (hj : j < n) (hiu : i ∉ used) (hju : j ∉ used)
    (hcm : ∀ x ∈ coll, ¬(x = i ∨ x = j ∨ x ∈ used))
    (hcr : ∀ x ∈ coll, x < n) (hcn : coll.Nodup) :
    (sortByKey key (i :: j :: coll)).Nodup ∧
      ∀ x ∈ sortByKey key (i :: j :: coll), x < n ∧ x ∉ used := by
  have hperm := sortByKey_perm key (i :: j :: coll)
  constructor
  · refine hperm.nodup_iff.mpr ?_
    refine List.nodup_cons.mpr ⟨?_, List.nodup_cons.mpr ⟨?_, hcn⟩⟩
    · intro hmem
      rcases List.mem_cons.mp hmem with hx | hx
      · exact hij hx
      · exact hcm i hx (Or.inl rfl)
    · intro hmem
      exact hcm j hmem (Or.inr (Or.inl rfl))
  · intro x hx
    have hx' := hperm.mem_iff.mp hx
    rcases List.mem_cons.mp hx' with rfl | hx''
    · exact ⟨hi, hiu⟩
    rcases List.mem_cons.mp hx'' with rfl | hx3
    · exact ⟨hj, hju⟩
    · exact ⟨hcr x hx3, fun hc => hcm x hx3 (Or.inr (Or.inr hc))⟩

theorem tryPair_some_spec {fs : List Feature} {cs : List Pt} {used : List ℕ}
    {i j : ℕ} {p : FeaturePattern} {pf : List ℕ}
    (hij : i ≠ j) (hi : i < fs.length) (hj : j < fs.length)
    (hiu : i ∉ used) (hju : j ∉ used)
    (h : tryPair fs cs used i j = some (p, pf)) :
    p.featureIds = pf.map (fun idx => (fs.getD idx default).featureId) ∧
      pf.Nodup ∧ ∀ x ∈ pf, x < fs.length ∧ x ∉ used := by
  simp only [tryPair] at h
  split_ifs at h with h1 h2 h3
  simp only [Option.some.injEq, Prod.mk.injEq] at h
  obtain ⟨hp, hpf⟩ := h
  subst hpf
  refine ⟨by rw [← hp], ?_, ?_⟩
  · exact (sorted_pf_spec _ _ fs.length used i j hij hi hj hiu hju
      (collectOnLine_mem _ _ _ _ _ _ _ _)
      (fun x hx => List.mem_range.mp ((collectOnLine_sublist _ _ _ _ _ _ _ _).subset hx))
      ((collectOnLine_sublist _ _ _ _ _ _ _ _).nodup (List.nodup_range _))).1
  · exact (sorted_pf_spec _ _ fs.length used i j hij hi hj hiu hju
      (collectOnLine_mem _ _ _ _ _ _ _ _)
      (fun x hx => List.mem_range.mp ((collectOnLine_sublist _ _ _ _ _ _ _ _).subset hx))
      ((collectOnLine_sublist _ _ _ _ _ _ _ _).nodup (List.nodup_range _))).2

theorem featureId_inj {fs : List Feature} (hnd : (fs.map Feature.featureId).Nodup)
    {x y : ℕ} (hx : x < fs.length) (hy : y < fs.length)
    (h : (fs.getD x default).featureId = (fs.getD y default).featureId) : x = y := by
  have hx' : x < (fs.map Feature.featureId).length := by simpa using hx
  have hy' : y < (fs.map Feature.featureId).length := by simpa using hy
  have hgx : (fs.map Feature.featureId).get ⟨x, hx'⟩ = (fs.getD x default).featureId := by
    rw [List.getD_eq_getElem fs default hx]
    simp
  have hgy : (fs.map Feature.featureId).get ⟨y, hy'⟩ = (fs.getD y default).featureId := by
    rw [List.getD_eq_getElem fs default hy]
    simp
  have hxy : (⟨x, hx'⟩ : Fin (fs.map Feature.featureId).length) = ⟨y, hy'⟩ := by
    apply (List.Nodup.get_inj_iff hnd).mp
    rw [hgx, hgy]
    exact h
  simpa using congrArg Fin.val hxy

/-- The invariant carried by the `detect_linear_patterns` loops: patterns
collected so far have pairwise disjoint id lists, and every id they hold
comes from an index already marked used. -/
def LinInv (fs : List Feature) (used : List ℕ) (pats : List FeaturePattern) : Prop :=
  pats.Pairwise (fun p q => ∀ m ∈ p.featureIds, m ∉ q.featureIds) ∧
    ∀ p ∈ pats, ∀ m ∈ p.featureIds,
      ∃ x, x < fs.length ∧ x ∈ used ∧ (fs.getD x default).featureId = m

theorem linLoopJ_inv {fs : List Feature} (cs : List Pt) {i : ℕ}
    (hnd : (fs.map Feature.featureId).Nodup) (hi : i < fs.length) :
    ∀ (js : List ℕ) (used : List ℕ) (pats : List FeaturePattern),
      (∀ j ∈ js, j < fs.length ∧ i ≠ j) → i ∉ used → LinInv fs used pats →
      LinInv fs (linLoopJ fs cs i js used pats).1 (linLoopJ fs cs i js used pats).2 ∧
        i ∉ (linLoopJ fs cs i js used pats).1 ∨
        LinInv fs (linLoopJ fs cs i js used pats).1 (linLoopJ fs cs i js used pats).2
  | [], used, pats => fun _ _ hinv => Or.inl ⟨hinv, by simpa [linLoopJ]⟩
  | j :: js, used, pats => fun hjs hiu hinv => by
      rw [linLoopJ]
      by_cases hju : j ∈ used
      · rw [if_pos hju]
        exact linLoopJ_inv cs hnd hi js used pats
          (fun x hx => hjs x (List.mem_cons_of_mem j hx)) hiu hinv
      · rw [if_neg hju]
        rcases htp : tryPair fs cs used i j with _ | ⟨p, pf⟩
        · exact linLoopJ_inv cs hnd hi js used pats
            (fun x hx => hjs x (List.mem_cons_of_mem j hx)) hiu hinv
        · right
          obtain ⟨hids, hndpf, hmem⟩ := tryPair_some_spec (hjs j (List.mem_cons_self j js)).2
            hi (hjs j (List.mem_cons_self j js)).1 hiu hju htp
          obtain ⟨hpw, hwit⟩ := hinv
          constructor
          · rw [List.pairwise_append]
            refine ⟨hpw, List.pairwise_singleton _ _, ?_⟩
            intro q hq p' hp' m hmq hmp
            obtain ⟨x, hxlt, hxu, hxid⟩ := hwit q hq m hmq
            rw [List.mem_singleton] at hp'
            subst hp'
            rw [hids, List.mem_map] at hmp
            obtain ⟨y, hy, hyid⟩ := hmp
            obtain ⟨hylt, hyu⟩ := hmem y hy
            have hxy : x = y := featureId_inj hnd hxlt hylt (by rw [hxid, hyid])
            exact hyu (hxy ▸ hxu)
          · intro p' hp' m hm
            rw [List.mem_append, List.mem_singleton] at hp'
            rcases hp' with hp' | rfl
            · obtain ⟨x, hxlt, hxu, hxid⟩ := hwit p' hp' m hm
              exact ⟨x, hxlt, List.mem_append_left _ hxu, hxid⟩
            · rw [hids, List.mem_map] at hm
              obtain ⟨y, hy, hyid⟩ := hm
              exact ⟨y, (hmem y hy).1, List.mem_append_right _ hy, hyid⟩

theorem linLoopI_inv {fs : List Feature} (cs : List Pt)
    (hnd : (fs.map Feature.featureId).Nodup) :
    ∀ (is : List ℕ) (used : List ℕ) (pats : List FeaturePattern),
      (∀ i ∈ is, i < fs.length) → LinInv fs used pats →
      (linLoopI fs cs is used pats).Pairwise
        (fun p q => ∀ m ∈ p.featureIds, m ∉ q.featureIds)
  | [], used, pats => fun _ hinv => by
      rw [linLoopI]
      exact hinv.1
  | i :: is, used, pats => fun his hinv => by
      rw [linLoopI]
      by_cases hiu : i ∈ used
      · rw [if_pos hiu]
        exact linLoopI_inv cs hnd is used pats
          (fun x hx => his x (List.mem_cons_of_mem i hx)) hinv
      · rw [if_neg hiu]
        have hjr : ∀ j ∈ List.range' (i + 1) (fs.length - (i + 1)), j < fs.length ∧ i ≠ j := by
          intro j hj
          rw [List.mem_range'] at hj
          obtain ⟨hj1, hj2⟩ := hj
          omega
        have hstep := linLoopJ_inv cs hnd (his i (List.mem_cons_self i is))
          (List.range' (i + 1) (fs.length - (i + 1))) used pats hjr hiu hinv
        rcases hstep with ⟨hinv', _⟩ | hinv' <;>
          exact linLoopI_inv cs hnd is _ _
            (fun x hx => his x (List.mem_cons_of_mem i hx)) hinv'

/-- C2 (amended): within `detect_linear_patterns` the used-set makes the
returned linear patterns pairwise disjoint in their feature ids (given
distinct feature ids); across pattern types, however, a feature may
belong to several returned patterns, as the counterexample shows. -/
theorem linear_patterns_disjoint (fs : List Feature)
    (hnd : (fs.map Feature.featureId).Nodup) :
    (detectLinearPatterns fs).Pairwise
      (fun p q => ∀ m ∈ p.featureIds, m ∉ q.featureIds) := by
  unfold detectLinearPatterns
  split_ifs with h
  · exact List.Pairwise.nil
  · exact linLoopI_inv (fs.map getFeatureCenter) hnd (List.range fs.length) [] []
      (fun x hx => List.mem_range.mp hx)
      ⟨List.Pairwise.nil, by simp⟩

/-- Witness for C2's amended theorem at a concrete two-feature list with
distinct ids. -/
theorem linear_patterns_disjoint_witness :
    ([⟨1, "Hole", some ⟨0, 0, 0⟩⟩, ⟨2, "Hole", some ⟨3, 0, 0⟩⟩].map
        Feature.featureId).Nodup ∧
      (detectLinearPatterns
          [⟨1, "Hole", some ⟨0, 0, 0⟩⟩, ⟨2, "Hole", some ⟨3, 0, 0⟩⟩]).Pairwise
        (fun p q => ∀ m ∈ p.featureIds, m ∉ q.featureIds) :=
  ⟨by simp, linear_patterns_disjoint _ (by simp)⟩

/-! ### C1: pattern confidence bounds -/

set_option maxHeartbeats 3000000 in
/-- Counterexample to C1 as stated: three features with coincident
centers at (1,2,3) plus one at (1.6,2,3) pass the linear spacing check
(max deviation 0.4 < 0.5) yet get confidence 1 - 0.4/0.2 = -1 < 0. -/
theorem linear_confidence_negative :
    recognizeAllPatterns
        [⟨11, "Hole", some ⟨1, 2, 3⟩⟩, ⟨12, "Hole", some ⟨1, 2, 3⟩⟩,
         ⟨13, "Hole", some ⟨1, 2, 3⟩⟩, ⟨14, "Hole", some ⟨1.6, 2, 3⟩⟩] =
      [⟨PatternType.LINEAR, [11, 12, 13, 14], 4, 0.2, 0, none,
        some (PatternDirection.vec ⟨1, 0, 0⟩), -1⟩] ∧
      (-1 : ℝ) < 0 := by
  have e36 : Real.sqrt (9 / 25) = 3 / 5 := sqrt_eval (by norm_num) (by norm_num)
  have e36' : Real.sqrt 0.36 = 0.6 := sqrt_eval (by norm_num) (by norm_num)
  have e4 : Real.sqrt 4 = 2 := sqrt_eval (by norm_num) (by norm_num)
  have e16 : Real.sqrt 16 = 4 := sqrt_eval (by norm_num) (by norm_num)
  have e36b : Real.sqrt 36 = 6 := sqrt_eval (by norm_num) (by norm_num)
  have e676 : Real.sqrt (169 / 25) = 13 / 5 := sqrt_eval (by norm_num) (by norm_num)
  have e676' : Real.sqrt 6.76 = 2.6 := sqrt_eval (by norm_num) (by norm_num)
  have n3636 : ¬Real.sqrt (909 / 25) < 1 / 2 := sqrt_not_lt (by norm_num) (by norm_num)
  have n3636' : ¬Real.sqrt 36.36 < 0.5 := sqrt_not_lt (by norm_num) (by norm_num)
  have n1636 : ¬Real.sqrt (409 / 25) < 1 / 2 := sqrt_not_lt (by norm_num) (by norm_num)
  have n1636' : ¬Real.sqrt 16.36 < 0.5 := sqrt_not_lt (by norm_num) (by norm_num)
  have s9 : Real.sqrt 9 = 3 := sqrt_eval (by norm_num) (by norm_num)
  have s25 : Real.sqrt 25 = 5 := sqrt_eval (by norm_num) (by norm_num)
  have s169 : Real.sqrt 169 = 13 := sqrt_eval (by norm_num) (by norm_num)
  have n909a : ¬Real.sqrt 909 / Real.sqrt 25 < 1 / 2 := by
    rw [s25, div_lt_iff₀ (by norm_num : (0 : ℝ) < 5)]
    intro hlt
    have hnl : ¬Real.sqrt 909 < 5 / 2 := sqrt_not_lt (by norm_num) (by norm_num)
    exact hnl (by linarith)
  have n909b : ¬Real.sqrt 909 / 5 < 1 / 2 := by
    rw [div_lt_iff₀ (by norm_num : (0 : ℝ) < 5)]
    intro hlt
    have hnl : ¬Real.sqrt 909 < 5 / 2 := sqrt_not_lt (by norm_num) (by norm_num)
    exact hnl (by linarith)
  have n409a : ¬Real.sqrt 409 / Real.sqrt 25 < 1 / 2 := by
    rw [s25, div_lt_iff₀ (by norm_num : (0 : ℝ) < 5)]
    intro hlt
    have hnl : ¬Real.sqrt 409 < 5 / 2 := sqrt_not_lt (by norm_num) (by norm_num)
    exact hnl (by linarith)
  have n409b : ¬Real.sqrt 409 / 5 < 1 / 2 := by
    rw [div_lt_iff₀ (by norm_num : (0 : ℝ) < 5)]
    intro hlt
    have hnl : ¬Real.sqrt 409 < 5 / 2 := sqrt_not_lt (by norm_num) (by norm_num)
    exact hnl (by linarith)
  have a15 : |(1 : ℝ) / 5| = 1 / 5 := abs_of_nonneg (by norm_num)
  have a25 : |(2 : ℝ) / 5| = 2 / 5 := abs_of_nonneg (by norm_num)
  have m25 : max ((1 : ℝ) / 5) ((2 : ℝ) / 5) = 2 / 5 := max_eq_right (by norm_num)
  refine ⟨?_, by norm_num⟩
  norm_num [recognizeAllPatterns, groupTypes, detectLinearPatterns,
    detectCircularPatterns, detectGridPatterns, detectMirrorPatterns, circLoop,
    circTriples, calcCircleCenter3d, gridPairLoop, upperPairs, findDominantSpacing,
    groupInsert, maxByLen, mirrorLoopI, mirrorFindJ, mirrorFlip, linLoopI, linLoopJ,
    tryPair, collectOnLine, isOnLine, distAlongLine, sortByKey, insertByKey,
    consecutiveDists, listMax, dist3, getFeatureCenter, POSITION_TOLERANCE,
    MIN_PATTERN_COUNT, e36, e36', e4, e16, e36b, e676, e676', n3636, n3636', n1636,
    n1636', a15, a25, m25, s9, s25, s169, n909a, n909b, n409a, n409b, Real.sqrt_zero]

theorem le_foldl_max : ∀ (l : List ℝ) (a : ℝ), a ≤ l.foldl max a
  | [], _ => le_refl _
  | b :: bs, a => le_trans (le_max_left a b) (le_foldl_max bs (max a b))

theorem listMax_nonneg {l : List ℝ} (h : ∀ x ∈ l, 0 ≤ x) : 0 ≤ listMax l := by
  cases l with
  | nil => exact le_refl _
  | cons a rest => exact le_trans (h a (List.mem_cons_self a rest)) (le_foldl_max rest a)

theorem consecutiveDists_nonneg (cs : List Pt) :
    ∀ l : List ℕ, ∀ x ∈ consecutiveDists cs l, 0 ≤ x
  | [] => by simp [consecutiveDists]
  | [a] => by simp [consecutiveDists]
  | a :: b :: rest => by
      intro x hx
      rw [consecutiveDists] at hx
      rcases List.mem_cons.mp hx with rfl | hx'
      · exact Real.sqrt_nonneg _
      · exact consecutiveDists_nonneg cs (b :: rest) x hx'

theorem tryPair_some_conf {fs : List Feature} {cs : List Pt} {used : List ℕ}
    {i j : ℕ} {p : FeaturePattern} {pf : List ℕ}
    (h : tryPair fs cs used i j = some (p, pf)) :
    p.confidence ≤ 1 ∧ p.patternType = PatternType.LINEAR := by
  simp only [tryPair] at h
  split_ifs at h with h1 h2 h3
  simp only [Option.some.injEq, Prod.mk.injEq] at h
  obtain ⟨hp, hpf⟩ := h
  refine ⟨?_, by rw [← hp]⟩
  rw [← hp]
  refine sub_le_self _ (div_nonneg ?_ ?_)
  · refine listMax_nonneg ?_
    intro x hx
    obtain ⟨s, _, rfl⟩ := List.mem_map.mp hx
    exact abs_nonneg _
  · exact div_nonneg (List.sum_nonneg fun x hx => consecutiveDists_nonneg _ _ x hx)
      (Nat.cast_nonneg _)

theorem linLoopJ_conf (fs : List Feature) (cs : List Pt) (i : ℕ) :
    ∀ (js used : List ℕ) (pats : List FeaturePattern),
      ∀ p ∈ (linLoopJ fs cs i js used pats).2,
        p ∈ pats ∨ (p.confidence ≤ 1 ∧ p.patternType = PatternType.LINEAR)
  | [], used, pats => fun p hp => Or.inl (by simpa [linLoopJ] using hp)
  | j :: js, used, pats => fun p hp => by
      rw [linLoopJ] at hp
      by_cases hju : j ∈ used
      · rw [if_pos hju] at hp
        exact linLoopJ_conf fs cs i js used pats p hp
      · rw [if_neg hju] at hp
        rcases htp : tryPair fs cs used i j with _ | ⟨q, pf⟩
        · rw [htp] at hp
          exact linLoopJ_conf fs cs i js used pats p hp
        · rw [htp] at hp
          simp only [] at hp
          rcases List.mem_append.mp hp with hp' | hp'
          · exact Or.inl hp'
          · right
            rw [List.mem_singleton] at hp'
            subst hp'
            exact tryPair_some_conf htp

theorem linLoopI_conf (fs : List Feature) (cs : List Pt) :
    ∀ (is used : List ℕ) (pats : List FeaturePattern),
      ∀ p ∈ linLoopI fs cs is used pats,
        p ∈ pats ∨ (p.confidence ≤ 1 ∧ p.patternType = PatternType.LINEAR)
  | [], used, pats => fun p hp => Or.inl (by simpa [linLoopI] using hp)
  | i :: is, used, pats => fun p hp => by
      rw [linLoopI] at hp
      by_cases hiu : i ∈ used
      · rw [if_pos hiu] at hp
        exact linLoopI_conf fs cs is used pats p hp
      · rw [if_neg hiu] at hp
        rcases linLoopI_conf fs cs is _ _ p hp with hp' | hgood
        · exact linLoopJ_conf fs cs i _ used pats p hp'
        · exact Or.inr hgood

theorem detectLinearPatterns_conf (fs : List Feature) :
    ∀ p ∈ detectLinearPatterns fs,
      p.confidence ≤ 1 ∧ p.patternType = PatternType.LINEAR := by
  intro p hp
  unfold detectLinearPatterns at hp
  split_ifs at hp
  · exact absurd hp (List.not_mem_nil p)
  · rcases linLoopI_conf fs _ _ _ _ p hp with hp' | hgood
    · exact absurd hp' (List.not_mem_nil p)
    · exact hgood

theorem circLoop_conf (fs : List Feature) (cs : List Pt) :
    ∀ ts : List (ℕ × ℕ × ℕ), ∀ p ∈ circLoop fs cs ts,
      p.confidence = 0.9 ∧ p.patternType = PatternType.CIRCULAR
  | [] => by simp [circLoop]
  | (i, j, k) :: rest => by
      intro p hp
      rw [circLoop] at hp
      rcases hcc : calcCircleCenter3d (cs.getD i ⟨0, 0, 0⟩) (cs.getD j ⟨0, 0, 0⟩)
          (cs.getD k ⟨0, 0, 0⟩) with _ | cc
      · rw [hcc] at hp
        exact circLoop_conf fs cs rest p hp
      · rw [hcc] at hp
        simp only [] at hp
        split_ifs at hp
        all_goals
          first
          | exact circLoop_conf fs cs rest p hp
          | · rw [List.mem_singleton] at hp
              subst hp
              exact ⟨rfl, rfl⟩

theorem detectCircularPatterns_conf (fs : List Feature) :
    ∀ p ∈ detectCircularPatterns fs,
      p.confidence = 0.9 ∧ p.patternType = PatternType.CIRCULAR := by
  intro p hp
  unfold detectCircularPatterns at hp
  split_ifs at hp
  · exact absurd hp (List.not_mem_nil p)
  · exact circLoop_conf fs _ _ p hp

theorem detectGridPatterns_conf (fs : List Feature) :
    ∀ p ∈ detectGridPatterns fs,
      p.confidence = 0.8 ∧ p.patternType = PatternType.GRID := by
  intro p hp
  unfold detectGridPatterns at hp
  simp only [] at hp
  by_cases h1 : fs.length < 4
  · rw [if_pos h1] at hp
    exact absurd hp (List.not_mem_nil p)
  · rw [if_neg h1] at hp
    by_cases h2 : (gridPairLoop (fs.map getFeatureCenter)
          (upperPairs (fs.map getFeatureCenter).length) ([], [])).1 ≠ [] ∧
        (gridPairLoop (fs.map getFeatureCenter)
          (upperPairs (fs.map getFeatureCenter).length) ([], [])).2 ≠ []
    · rw [if_pos h2] at hp
      rcases hx : findDominantSpacing (gridPairLoop (fs.map getFeatureCenter)
          (upperPairs (fs.map getFeatureCenter).length) ([], [])).1 with _ | sx <;>
        rcases hy : findDominantSpacing (gridPairLoop (fs.map getFeatureCenter)
            (upperPairs (fs.map getFeatureCenter).length) ([], [])).2 with _ | sy <;>
        rw [hx, hy] at hp <;> simp only [] at hp
      · exact absurd hp (List.not_mem_nil p)
      · exact absurd hp (List.not_mem_nil p)
      · exact absurd hp (List.not_mem_nil p)
      · split_ifs at hp
        all_goals
          first
          | exact absurd hp (List.not_mem_nil p)
          | · rw [List.mem_singleton] at hp
              subst hp
              exact ⟨rfl, rfl⟩
    · rw [if_neg h2] at hp
      exact absurd hp (List.not_mem_nil p)

theorem detectMirrorPatterns_conf (fs : List Feature) :
    ∀ p ∈ detectMirrorPatterns fs,
      p.confidence = 0.85 ∧ p.patternType = PatternType.MIRROR := by
  intro p hp
  unfold detectMirrorPatterns at hp
  simp only [] at hp
  split_ifs at hp
  · exact absurd hp (List.not_mem_nil p)
  · rw [List.mem_flatMap] at hp
    obtain ⟨plane, _, hp'⟩ := hp
    split_ifs at hp'
    · rw [List.mem_singleton] at hp'
      subst hp'
      exact ⟨rfl, rfl⟩
    · exact absurd hp' (List.not_mem_nil p)

/-- C1 (amended): every pattern returned by `recognize_all_patterns` has
confidence at most 1, and every non-linear pattern has confidence in
[0, 1]; linear patterns, however, can get a negative confidence (see the
counterexample), because the max spacing deviation may exceed the mean
spacing when near-coincident centers are involved. -/
theorem pattern_confidence_bounds (fs : List Feature) (p : FeaturePattern)
    (hp : p ∈ recognizeAllPatterns fs) :
    p.confidence ≤ 1 ∧
      (p.patternType ≠ PatternType.LINEAR →
        0 ≤ p.confidence ∧ p.confidence ≤ 1) := by
  unfold recognizeAllPatterns at hp
  rw [List.mem_flatMap] at hp
  obtain ⟨t, _, hp'⟩ := hp
  simp only [] at hp'
  split_ifs at hp'
  · exact absurd hp' (List.not_mem_nil p)
  · rw [List.mem_append] at hp'
    rcases hp' with hp' | hp'
    · rw [List.mem_append] at hp'
      rcases hp' with hp' | hp'
      · rw [List.mem_append] at hp'
        rcases hp' with hp' | hp'
        · obtain ⟨hc, ht⟩ := detectLinearPatterns_conf _ p hp'
          exact ⟨hc, fun hne => absurd ht hne⟩
        · obtain ⟨hc, ht⟩ := detectCircularPatterns_conf _ p hp'
          rw [hc]
          exact ⟨by norm_num, fun _ => by norm_num⟩
      · obtain ⟨hc, ht⟩ := detectGridPatterns_conf _ p hp'
        rw [hc]
        exact ⟨by norm_num, fun _ => by norm_num⟩
    · obtain ⟨hc, ht⟩ := detectMirrorPatterns_conf _ p hp'
      rw [hc]
      exact ⟨by norm_num, fun _ => by norm_num⟩

set_option maxHeartbeats 2000000 in
/-- Witness for C1's amended theorem on the linear pattern produced by
two features at (0,0,0) and (1,0,0). -/
theorem pattern_confidence_bounds_witness :
    (⟨PatternType.LINEAR, [1, 2], 2, 1, 0, none,
        some (PatternDirection.vec ⟨1, 0, 0⟩), 1⟩ : FeaturePattern).confidence ≤ 1 ∧
      ((⟨PatternType.LINEAR, [1, 2], 2, 1, 0, none,
          some (PatternDirection.vec ⟨1, 0, 0⟩), 1⟩ : FeaturePattern).patternType ≠
          PatternType.LINEAR →
        0 ≤ (⟨PatternType.LINEAR, [1, 2], 2, 1, 0, none,
            some (PatternDirection.vec ⟨1, 0, 0⟩), 1⟩ : FeaturePattern).confidence ∧
          (⟨PatternType.LINEAR, [1, 2], 2, 1, 0, none,
            some (PatternDirection.vec ⟨1, 0, 0⟩), 1⟩ : FeaturePattern).confidence ≤ 1) := by
  have hmem : (⟨PatternType.LINEAR, [1, 2], 2, 1, 0, none,
      some (PatternDirection.vec ⟨1, 0, 0⟩), 1⟩ : FeaturePattern) ∈
      recognizeAllPatterns
        [⟨1, "Hole", some ⟨0, 0, 0⟩⟩, ⟨2, "Hole", some ⟨1, 0, 0⟩⟩] := by
    norm_num [recognizeAllPatterns, groupTypes, detectLinearPatterns,
      detectCircularPatterns, detectGridPatterns, detectMirrorPatterns, mirrorLoopI,
      mirrorFindJ, mirrorFlip, linLoopI, linLoopJ, tryPair, collectOnLine, isOnLine,
      distAlongLine, sortByKey, insertByKey, consecutiveDists, listMax, dist3,
      getFeatureCenter, POSITION_TOLERANCE, MIN_PATTERN_COUNT, Real.sqrt_one,
      Real.sqrt_zero]
  exact pattern_confidence_bounds _ _ hmem

/-! ### C5: six features on a circle form one circular pattern -/

theorem calcCircleCenter3d_on_circle (p1 p2 p3 : Pt) (a b r : ℝ)
    (h1 : (p1.x - a) ^ 2 + (p1.y - b) ^ 2 = r)
    (h2 : (p2.x - a) ^ 2 + (p2.y - b) ^ 2 = r)
    (h3 : (p3.x - a) ^ 2 + (p3.y - b) ^ 2 = r)
    (hd : ¬|2 * (p1.x * (p2.y - p3.y) + p2.x * (p3.y - p1.y) +
        p3.x * (p1.y - p2.y))| < 0.001) :
    calcCircleCenter3d p1 p2 p3 = some ⟨a, b, (p1.z + p2.z + p3.z) / 3⟩ := by
  unfold calcCircleCenter3d
  rw [if_neg hd]
  have hdne : 2 * (p1.x * (p2.y - p3.y) + p2.x * (p3.y - p1.y) +
      p3.x * (p1.y - p2.y)) ≠ 0 := by
    intro h0
    apply hd
    rw [h0]
    norm_num
  have hux : ((p1.x ^ 2 + p1.y ^ 2) * (p2.y - p3.y) + (p2.x ^ 2 + p2.y ^ 2) * (p3.y - p1.y) +
      (p3.x ^ 2 + p3.y ^ 2) * (p1.y - p2.y)) /
      (2 * (p1.x * (p2.y - p3.y) + p2.x * (p3.y - p1.y) + p3.x * (p1.y - p2.y))) = a := by
    rw [div_eq_iff hdne]
    linear_combination (p2.y - p3.y) * h1 + (p3.y - p1.y) * h2 + (p1.y - p2.y) * h3
  have huy : ((p1.x ^ 2 + p1.y ^ 2) * (p3.x - p2.x) + (p2.x ^ 2 + p2.y ^ 2) * (p1.x - p3.x) +
      (p3.x ^ 2 + p3.y ^ 2) * (p2.x - p1.x)) /
      (2 * (p1.x * (p2.y - p3.y) + p2.x * (p3.y - p1.y) + p3.x * (p1.y - p2.y))) = b := by
    rw [div_eq_iff hdne]
    linear_combination (p3.x - p2.x) * h1 + (p1.x - p3.x) * h2 + (p2.x - p1.x) * h3
  rw [hux, huy]

set_option maxHeartbeats 1000000 in
/-- Evaluation of `detect_circular_patterns` on six features whose first
three centers admit a successful circle fit with center `cc` and radius
20, and whose remaining three centers lie within tolerance of that
radius: the scan stops at the very first triple (0,1,2) and collects all
six members. -/
theorem detectCircular_six (t : String) (a b c d e f : ℕ)
    (P0 P1 P2 P3 P4 P5 : Pt) (cc : Pt)
    (hcc : calcCircleCenter3d P0 P1 P2 = some cc)
    (h0 : dist3 P0 cc = 20)
    (h3 : |dist3 P3 cc - 20| < 0.5) (h3h : |dist3 P3 cc - 20| < 1 / 2)
    (h4 : |dist3 P4 cc - 20| < 0.5) (h4h : |dist3 P4 cc - 20| < 1 / 2)
    (h5 : |dist3 P5 cc - 20| < 0.5) (h5h : |dist3 P5 cc - 20| < 1 / 2) :
    detectCircularPatterns
        [⟨a, t, some P0⟩, ⟨b, t, some P1⟩, ⟨c, t, some P2⟩,
         ⟨d, t, some P3⟩, ⟨e, t, some P4⟩, ⟨f, t, some P5⟩] =
      [⟨PatternType.CIRCULAR, [a, b, c, d, e, f], 6, 0, 60, some cc, none, 0.9⟩] := by
  unfold detectCircularPatterns
  split_ifs with hlen
  · exact absurd hlen (by norm_num)
  · norm_num [circTriples, circLoop, circCollect, getFeatureCenter, hcc, h0, h3, h3h,
      h4, h4h, h5, h5h, POSITION_TOLERANCE]

set_option maxHeartbeats 1000000 in
/-- C5: six same-type features on a circle of radius 20 (in a plane of
constant z) at 60-degree increments yield exactly one circular pattern:
the first (non-collinear) triple's fit already succeeds and collects all
six ids, with angle 360/6 = 60 and confidence 0.9; collinear triples
(determinant below 0.001) are skipped via a `None` fit rather than an
error. -/
theorem hexagon_circular_pattern (cx cy z0 θ : ℝ) (t : String) (a b c d e f : ℕ) :
    detectCircularPatterns
        [⟨a, t, some ⟨cx + 20 * Real.cos θ, cy + 20 * Real.sin θ, z0⟩⟩,
         ⟨b, t, some ⟨cx + 20 * Real.cos (θ + Real.pi / 3),
                      cy + 20 * Real.sin (θ + Real.pi / 3), z0⟩⟩,
         ⟨c, t, some ⟨cx + 20 * Real.cos (θ + 2 * Real.pi / 3),
                      cy + 20 * Real.sin (θ + 2 * Real.pi / 3), z0⟩⟩,
         ⟨d, t, some ⟨cx + 20 * Real.cos (θ + Real.pi),
                      cy + 20 * Real.sin (θ + Real.pi), z0⟩⟩,
         ⟨e, t, some ⟨cx + 20 * Real.cos (θ + 4 * Real.pi / 3),
                      cy + 20 * Real.sin (θ + 4 * Real.pi / 3), z0⟩⟩,
         ⟨f, t, some ⟨cx + 20 * Real.cos (θ + 5 * Real.pi / 3),
                      cy + 20 * Real.sin (θ + 5 * Real.pi / 3), z0⟩⟩] =
      [⟨PatternType.CIRCULAR, [a, b, c, d, e, f], 6, 0, 60,
        some ⟨cx, cy, z0⟩, none, 0.9⟩] ∧
      ∀ p1 p2 p3 : Pt,
        |2 * (p1.x * (p2.y - p3.y) + p2.x * (p3.y - p1.y) +
            p3.x * (p1.y - p2.y))| < 0.001 →
          calcCircleCenter3d p1 p2 p3 = none := by
  refine ⟨?_, fun p1 p2 p3 h => by unfold calcCircleCenter3d; rw [if_pos h]⟩
  have hc3 : Real.cos (Real.pi / 3) = 1 / 2 := Real.cos_pi_div_three
  have hs3 : Real.sin (Real.pi / 3) = Real.sqrt 3 / 2 := Real.sin_pi_div_three
  have hc23 : Real.cos (2 * Real.pi / 3) = -(1 / 2) := by
    rw [show (2 * Real.pi / 3 : ℝ) = Real.pi - Real.pi / 3 by ring, Real.cos_pi_sub, hc3]
  have hs23 : Real.sin (2 * Real.pi / 3) = Real.sqrt 3 / 2 := by
    rw [show (2 * Real.pi / 3 : ℝ) = Real.pi - Real.pi / 3 by ring, Real.sin_pi_sub, hs3]
  have h3ge1 : (1 : ℝ) ≤ Real.sqrt 3 := by
    rw [show (1 : ℝ) = Real.sqrt 1 from Real.sqrt_one.symm]
    exact Real.sqrt_le_sqrt (by norm_num)
  have hd400 : 2 * ((cx + 20 * Real.cos θ) *
        ((cy + 20 * Real.sin (θ + Real.pi / 3)) -
          (cy + 20 * Real.sin (θ + 2 * Real.pi / 3))) +
      (cx + 20 * Real.cos (θ + Real.pi / 3)) *
        ((cy + 20 * Real.sin (θ + 2 * Real.pi / 3)) - (cy + 20 * Real.sin θ)) +
      (cx + 20 * Real.cos (θ + 2 * Real.pi / 3)) *
        ((cy + 20 * Real.sin θ) - (cy + 20 * Real.sin (θ + Real.pi / 3)))) =
      400 * Real.sqrt 3 := by
    simp only [Real.cos_add, Real.sin_add, hc3, hs3, hc23, hs23]
    linear_combination (400 * Real.sqrt 3) * Real.sin_sq_add_cos_sq θ
  have hnd : ¬|2 * ((cx + 20 * Real.cos θ) *
        ((cy + 20 * Real.sin (θ + Real.pi / 3)) -
          (cy + 20 * Real.sin (θ + 2 * Real.pi / 3))) +
      (cx + 20 * Real.cos (θ + Real.pi / 3)) *
        ((cy + 20 * Real.sin (θ + 2 * Real.pi / 3)) - (cy + 20 * Real.sin θ)) +
      (cx + 20 * Real.cos (θ + 2 * Real.pi / 3)) *
        ((cy + 20 * Real.sin θ) - (cy + 20 * Real.sin (θ + Real.pi / 3))))| < 0.001 := by
    rw [hd400, abs_of_nonneg (by positivity)]
    intro hlt
    nlinarith [h3ge1]
  have hcirc : ∀ α : ℝ,
      ((cx + 20 * Real.cos α) - cx) ^ 2 + ((cy + 20 * Real.sin α) - cy) ^ 2 = 400 := by
    intro α
    linear_combination 400 * Real.sin_sq_add_cos_sq α
  have hdist : ∀ α : ℝ,
      dist3 ⟨cx + 20 * Real.cos α, cy + 20 * Real.sin α, z0⟩ ⟨cx, cy, z0⟩ = 20 := by
    intro α
    show Real.sqrt ((cx - (cx + 20 * Real.cos α)) ^ 2 +
        (cy - (cy + 20 * Real.sin α)) ^ 2 + (z0 - z0) ^ 2) = 20
    rw [show (cx - (cx + 20 * Real.cos α)) ^ 2 + (cy - (cy + 20 * Real.sin α)) ^ 2 +
        (z0 - z0) ^ 2 = 400 from by linear_combination 400 * Real.sin_sq_add_cos_sq α]
    exact sqrt_eval (by norm_num) (by norm_num)
  have hdistn : dist3 ⟨cx + -(20 * Real.cos θ), cy + -(20 * Real.sin θ), z0⟩
      ⟨cx, cy, z0⟩ = 20 := by
    show Real.sqrt ((cx - (cx + -(20 * Real.cos θ))) ^ 2 +
        (cy - (cy + -(20 * Real.sin θ))) ^ 2 + (z0 - z0) ^ 2) = 20
    rw [show (cx - (cx + -(20 * Real.cos θ))) ^ 2 + (cy - (cy + -(20 * Real.sin θ))) ^ 2 +
        (z0 - z0) ^ 2 = 400 from by linear_combination 400 * Real.sin_sq_add_cos_sq θ]
    exact sqrt_eval (by norm_num) (by norm_num)
  have hcc : calcCircleCenter3d
      ⟨cx + 20 * Real.cos θ, cy + 20 * Real.sin θ, z0⟩
      ⟨cx + 20 * Real.cos (θ + Real.pi / 3), cy + 20 * Real.sin (θ + Real.pi / 3), z0⟩
      ⟨cx + 20 * Real.cos (θ + 2 * Real.pi / 3), cy + 20 * Real.sin (θ + 2 * Real.pi / 3),
        z0⟩ = some ⟨cx, cy, z0⟩ := by
    have h0 := calcCircleCenter3d_on_circle
      ⟨cx + 20 * Real.cos θ, cy + 20 * Real.sin θ, z0⟩
      ⟨cx + 20 * Real.cos (θ + Real.pi / 3), cy + 20 * Real.sin (θ + Real.pi / 3), z0⟩
      ⟨cx + 20 * Real.cos (θ + 2 * Real.pi / 3), cy + 20 * Real.sin (θ + 2 * Real.pi / 3),
        z0⟩ cx cy 400 (hcirc θ) (hcirc (θ + Real.pi / 3)) (hcirc (θ + 2 * Real.pi / 3)) hnd
    rw [h0, show (z0 + z0 + z0) / 3 = z0 by ring]
  refine detectCircular_six t a b c d e f _ _ _ _ _ _ _ hcc (hdist θ) ?_ ?_ ?_ ?_ ?_ ?_
  · rw [hdist (θ + Real.pi)]
    norm_num
  · rw [hdist (θ + Real.pi)]
    norm_num
  · rw [hdist (θ + 4 * Real.pi / 3)]
    norm_num
  · rw [hdist (θ + 4 * Real.pi / 3)]
    norm_num
  · rw [hdist (θ + 5 * Real.pi / 3)]
    norm_num
  · rw [hdist (θ + 5 * Real.pi / 3)]
    norm_num

/-- Witness for C5: the collinear-triple clause applied at three concrete
collinear points, whose determinant is exactly 0. -/
theorem hexagon_circular_pattern_witness :
    calcCircleCenter3d ⟨0, 0, 0⟩ ⟨1, 0, 0⟩ ⟨2, 0, 0⟩ = none :=
  (hexagon_circular_pattern 0 0 0 0 "Hole" 0 1 2 3 4 5).2 ⟨0, 0, 0⟩ ⟨1, 0, 0⟩ ⟨2, 0, 0⟩
    (by norm_num)

end FBM
